import Mathlib

/-!
Verification of the javari-mcp-vercel HTTP gateway (src/index.ts).

The server is a thin authenticated proxy in front of the Vercel REST API.
Every handler is a pure function of its inbound request together with an
explicit oracle for the outcome of outbound calls, so each Express handler
is embedded here as a Lean function from those inputs to the response it
produces plus the list of outbound calls it issues.

JavaScript truthiness on optional strings (`!x` is true for `undefined`
and for `""`) is modelled by `truthy` below; `x || d` on optional strings
is modelled by `jsOr`.
-/

namespace JavariMcp

/-- JS truthiness of a possibly-absent string: `undefined` and `""` are falsy. -/
def truthy : Option String → Bool
  | none => false
  | some s => s ≠ ""

/-- JS `x || d` for a possibly-absent string `x` and a literal default `d`. -/
def jsOr (x : Option String) (d : String) : String :=
  match x with
  | none => d
  | some s => if s = "" then d else s

/-! ## Authentication guard (index.ts lines 48-68) -/

/-- Outcome of the `authenticateAPI` middleware: either the 401 JSON error
body is sent, or `next()` is called. -/
inductive AuthOutcome
  | unauthorized
  | next
  deriving DecidableEq, Repr

/-- Middleware `authenticateAPI` (index.ts 48-60): reads the `x-api-key` header and
rejects with 401 when it is falsy or differs from `process.env.MCP_API_KEY`.
Both the header and the configured secret may be absent (`none` models
JS `undefined`); `===` between a string and `undefined` is Option equality. -/
def authenticateAPI (mcpApiKey : Option String) (apiKey : Option String) : AuthOutcome :=
  if !truthy apiKey || apiKey != mcpApiKey then .unauthorized else .next

/-- An inbound request as seen by the auth middleware: its path and the
value of its `x-api-key` header. -/
structure AuthRequest where
  path : String
  apiKey : Option String
  deriving Repr

/-- Whether the gate lets the request through to the route handlers. -/
inductive GateOutcome
  | unauthorized
  | handled
  deriving DecidableEq, Repr

/-- The app-level middleware (index.ts 63-68): the literal path `/health`
skips authentication, every other path goes through `authenticateAPI`. -/
def appGate (mcpApiKey : Option String) (req : AuthRequest) : GateOutcome :=
  if req.path = "/health" then .handled
  else
    match authenticateAPI mcpApiKey req.apiKey with
    | .unauthorized => .unauthorized
    | .next => .handled

/-- Outbound calls made while serving a request: the gate short-circuits
with 401 before any route handler runs, so a rejected request performs
none of the outbound calls of that handler. `handlerCalls` abstracts whatever
calls the matched route handler would make. -/
def appOutboundCalls (mcpApiKey : Option String) (req : AuthRequest)
    (handlerCalls : AuthRequest → List String) : List String :=
  match appGate mcpApiKey req with
  | .unauthorized => []
  | .handled => handlerCalls req

/-! ## Trigger-deployment handler (index.ts 116-186) -/

/-- The `gitSource` object of a deploy request body; every field may be
absent. `repo` is validated, `ty` and `ref` get literal defaults
(`ty` embeds the source field `type`, a Lean keyword). -/
structure GitSource where
  ty : Option String
  repo : Option String
  ref : Option String
  deriving DecidableEq, Repr

/-- One `{key, value}` entry of the `envVariables` array. -/
structure EnvPair where
  key : String
  value : String
  deriving DecidableEq, Repr

/-- The deploy request body. The handler destructures only `name`,
`gitSource`, `envVariables`, `buildCommand` and `framework`; a caller
supplied `target` field is carried here to show it is ignored. -/
structure DeployRequest where
  name : Option String
  gitSource : Option GitSource
  envVariables : Option (List EnvPair)
  buildCommand : Option String
  framework : Option String
  callerTarget : Option String
  deriving Repr

/-- JS object update `acc[k] = v`: overwrite the existing binding of `k`
in place, or append a fresh one (JS objects keep first-insertion order). -/
def setKey : List (String × String) → String → String → List (String × String)
  | [], k, v => [(k, v)]
  | (k', v') :: rest, k, v =>
    if k' = k then (k, v) :: rest else (k', v') :: setKey rest k v

/-- The `envVariables.reduce` fold (index.ts 155-158): fold the array into
one key-to-value object, later entries overwriting earlier ones. -/
def reduceEnv (envVariables : List EnvPair) : List (String × String) :=
  envVariables.foldl (fun acc e => setKey acc e.key e.value) []

/-- The outbound `deploymentData` payload posted to `/v13/deployments`
(index.ts 136-159). `gitTy` embeds the payload field `gitSource.type`. -/
structure DeploymentData where
  name : String
  gitTy : String
  gitRepo : String
  gitRef : String
  tgt : String
  framework : Option String
  buildCommand : Option String
  env : Option (List (String × String))
  deriving DecidableEq, Repr

/-- Result of the deploy handler up to the outbound call: either a 400
validation error with the given message, or the payload it sends. -/
inductive DeployResult
  | validationError (msg : String)
  | sends (payload : DeploymentData)
  deriving DecidableEq, Repr

/-- The POST `/api/deploy` handler (index.ts 116-161) up to the outbound
call: validates `name` and `gitSource.repo` (JS-falsy checks), then builds
`deploymentData` with defaults `type: github`, `ref: main` and the fixed
`target: preview`; `framework` and `buildCommand` are included only when
truthy; an `envVariables` array is folded by `reduceEnv`. -/
def deployHandler (req : DeployRequest) : DeployResult :=
  if !truthy req.name then .validationError "Project name is required"
  else
    match req.gitSource with
    | none => .validationError "Git source is required"
    | some gs =>
      if !truthy gs.repo then .validationError "Git source is required"
      else
        .sends
          { name := req.name.getD ""
            gitTy := jsOr gs.ty "github"
            gitRepo := gs.repo.getD ""
            gitRef := jsOr gs.ref "main"
            tgt := "preview"
            framework := if truthy req.framework then req.framework else none
            buildCommand := if truthy req.buildCommand then req.buildCommand else none
            env := req.envVariables.map reduceEnv }

/-- Outbound calls of the deploy handler: the POST to `/v13/deployments`
happens only after validation passes. -/
def deployOutboundCalls (req : DeployRequest) : List DeploymentData :=
  match deployHandler req with
  | .validationError _ => []
  | .sends p => [p]

/-! ## Environment-variable handler (index.ts 356-399) -/

/-- The POST `/api/env` request body: `projectId` may be absent or empty
(both JS-falsy); `env` is a JS object, absent (`none`) when falsy — an
empty object is truthy, so `some []` models `env: {}`. Entries are in
`Object.entries` order. -/
structure EnvRequest where
  projectId : Option String
  env : Option (List (String × String))
  deriving Repr

/-- One outbound POST to `/v9/projects/:projectId/env` (index.ts 373-380),
with the fixed write kind `encrypted` and the fixed target pair. `wty`
embeds the payload field `type`. -/
structure EnvWrite where
  projectId : String
  key : String
  value : String
  wty : String
  tgts : List String
  deriving DecidableEq, Repr

/-- The writes the handler dispatches: one per entry of `env`, all built
before `Promise.all` awaits anything. -/
def envWrites (projectId : String) (entries : List (String × String)) : List EnvWrite :=
  entries.map fun e => ⟨projectId, e.1, e.2, "encrypted", ["production", "preview"]⟩

/-- Response of the env handler: 400 validation error, 200 success, or the
500 error envelope produced when `Promise.all` rejects. -/
inductive EnvResult
  | validationError
  | success
  | failure
  deriving DecidableEq, Repr

/-- The POST `/api/env` handler (index.ts 356-399). `ok` is the outcome
oracle for the remote platform: `ok w = true` iff write `w` succeeds.
Returns the response together with the outbound writes actually issued;
all writes are dispatched before any outcome is observed, so the issued
list never depends on `ok`. -/
def envHandler (req : EnvRequest) (ok : EnvWrite → Bool) : EnvResult × List EnvWrite :=
  if !truthy req.projectId then (.validationError, [])
  else
    match req.env with
    | none => (.validationError, [])
    | some entries =>
      let ws := envWrites (req.projectId.getD "") entries
      if ws.all ok then (.success, ws) else (.failure, ws)

/-- Writes issued by `n` successive identical calls to the env handler:
the handler keeps no state between calls, so each repetition contributes
its full write list again. -/
def envRepeatCalls (n : Nat) (req : EnvRequest) (ok : EnvWrite → Bool) : List EnvWrite :=
  match n with
  | 0 => []
  | Nat.succ m => (envHandler req ok).2 ++ envRepeatCalls m req ok

/-! ## Build-error extraction handler (index.ts 436-467) -/

/-- The payload of a deployment event; `text` and `message` may be absent. -/
structure EventPayload where
  text : Option String
  message : Option String
  deriving DecidableEq, Repr

/-- One event of the deployment event stream. `ty` embeds the source
field `type`; `created` is the event timestamp. -/
structure VercelEvent where
  ty : String
  created : Nat
  payload : Option EventPayload
  deriving DecidableEq, Repr

/-- Whether `pat` occurs at the start of `l` (character-list matching). -/
def leadsWith (pat : List Char) : List Char → Bool :=
  fun l =>
    match pat, l with
    | [], _ => true
    | _ :: _, [] => false
    | c :: cs, d :: ds => c == d && leadsWith cs ds

/-- Whether `pat` occurs contiguously somewhere in `l`. -/
def occursIn (pat : List Char) : List Char → Bool
  | [] => pat.isEmpty
  | d :: t => leadsWith pat (d :: t) || occursIn pat t

/-- JS `hay.toLowerCase().includes(needle)` for a literal `needle`:
lowercase the hay character-wise, then look for the needle as a
contiguous run. -/
def lowerIncludes (hay needle : String) : Bool :=
  occursIn needle.toList (hay.toList.map Char.toLower)

/-- The filter predicate of the errors handler (index.ts 444-447):
type equal to the literal stderr, or the optional-chained
payload text check: text truthy and its lowercasing containing error. -/
def isErrorEvent (e : VercelEvent) : Bool :=
  e.ty == "stderr" ||
    (match e.payload with
     | none => false
     | some p =>
       match p.text with
       | none => false
       | some t => (t ≠ "") && lowerIncludes t "error")

/-- The message projection of the errors handler (index.ts 450):
payload text, else payload message, else the literal fallback, via
JS `||`, so an empty string falls through to the next alternative. -/
def errorMessage (e : VercelEvent) : String :=
  match e.payload with
  | none => "Unknown error"
  | some p =>
    if truthy p.text then p.text.getD ""
    else if truthy p.message then p.message.getD ""
    else "Unknown error"

/-- One entry of the `errors` array of the response. -/
structure ErrorEntry where
  timestamp : Nat
  message : String
  deriving DecidableEq, Repr

/-- The GET `/api/deploy/:id/errors` projection (index.ts 443-451): filter
the event stream with `isErrorEvent`, then map to timestamp and message. -/
def parseErrors (events : List VercelEvent) : List ErrorEntry :=
  (events.filter isErrorEvent).map fun e => ⟨e.created, errorMessage e⟩

/-- The full success response body of the handler (index.ts 453-457):
the errors list and `hasErrors: errors.length > 0`. -/
def errorsResponse (events : List VercelEvent) : List ErrorEntry × Bool :=
  let errs := parseErrors events
  (errs, decide (errs.length > 0))

/-- The filter as the specification words it: type exactly `stderr`, or the
payload text contains the case-insensitive substring `error` (no separate
truthiness conjunct). Spec-side definition used to compare against
`isErrorEvent`. -/
def specErrorFilter (e : VercelEvent) : Bool :=
  e.ty == "stderr" ||
    (match e.payload with
     | none => false
     | some p =>
       match p.text with
       | none => false
       | some t => lowerIncludes t "error")

/-- The message projection exactly as the claim words it: `payload.text`
if present, else `payload.message` if present, else `Unknown error` —
presence alone, with no non-emptiness requirement. Spec-side definition
used to compare against `errorMessage`. -/
def claimMessage (e : VercelEvent) : String :=
  match e.payload with
  | none => "Unknown error"
  | some p =>
    match p.text with
    | some t => t
    | none =>
      match p.message with
      | some m => m
      | none => "Unknown error"

/-- The whole errors projection as the claim words it, built from
`specErrorFilter` and `claimMessage`. -/
def claimParseErrors (events : List VercelEvent) : List ErrorEntry :=
  (events.filter specErrorFilter).map fun e => ⟨e.created, claimMessage e⟩

/-- The amended message projection: `payload.text` if present and
non-empty, else `payload.message` if present and non-empty, else
`Unknown error`. -/
def amendedMessage (e : VercelEvent) : String :=
  match e.payload with
  | none => "Unknown error"
  | some p =>
    match p.text with
    | some t =>
      if t ≠ "" then t
      else
        match p.message with
        | some m => if m ≠ "" then m else "Unknown error"
        | none => "Unknown error"
    | none =>
      match p.message with
      | some m => if m ≠ "" then m else "Unknown error"
      | none => "Unknown error"

/-- The errors projection under the amended claim. -/
def amendedParseErrors (events : List VercelEvent) : List ErrorEntry :=
  (events.filter specErrorFilter).map fun e => ⟨e.created, amendedMessage e⟩

/-! ## Liveness probe (index.ts 87-113) -/

/-- Response of the health endpoint: HTTP status code, `status` string,
`vercel.connected`, optional `vercel.user`, optional `vercel.error`. -/
structure HealthResponse where
  statusCode : Nat
  status : String
  connected : Bool
  user : Option String
  error : Option String
  deriving DecidableEq, Repr

/-- JS `error instanceof Error ? error.message : ...` (index.ts 109): a
thrown value that is an `Error` carries `some` message, anything else
becomes the literal fallback. -/
def jsErrMessage (e : Option String) : String := e.getD "Unknown error"

/-- The GET `/health` handler (index.ts 87-113). `token` is
`process.env.VERCEL_TOKEN` (`getVercelClient` throws inside the `try` when
it is absent); `upstream` is the outcome of the GET to the identity path
followed by reading `response.data.user.username` — `Except.ok` with the
username on success, `Except.error` with the thrown value otherwise. Every
throw lands in the same `catch`, producing the 503 body. -/
def healthHandler (token : Option String) (upstream : Except (Option String) String) :
    HealthResponse :=
  match token with
  | none => ⟨503, "unhealthy", false, none, some (jsErrMessage (some "VERCEL_TOKEN not configured"))⟩
  | some _ =>
    match upstream with
    | .ok username => ⟨200, "healthy", true, some username, none⟩
    | .error e => ⟨503, "unhealthy", false, none, some (jsErrMessage e)⟩

/-! ## URL reconstruction (index.ts 172, 201, 334) -/

/-- The template literal used by the deploy, status and
projects-listing handlers to rebuild a URL from the host string the remote
platform returns. -/
def mkUrl (host : String) : String := "https://" ++ host

/-- Whether `s` starts with the scheme marker `https://`. -/
def startsWithScheme (s : String) : Bool :=
  leadsWith "https://".toList s.toList

/-- Whether `s` starts with a doubled scheme marker `https://https://`. -/
def doubledScheme (s : String) : Bool :=
  leadsWith "https://https://".toList s.toList

/-- Whether the upstream identity call succeeded. -/
def upstreamOk : Except (Option String) String → Bool
  | .ok _ => true
  | .error _ => false

/-! ## Theorems -/

/-- C1: every request whose path is not literally `/health` and whose
`x-api-key` header is absent or differs from the configured shared secret
is answered with the 401 Unauthorized body, and no outbound call to the
remote platform is made; the `/health` exemption is by exact literal path
comparison, so prefixed paths such as `/health/x` are still guarded. -/
theorem auth_gate_rejects_without_outbound (mcpApiKey : Option String)
    (req : AuthRequest) (handlerCalls : AuthRequest → List String)
    (hpath : req.path ≠ "/health")
    (hkey : req.apiKey = none ∨ req.apiKey ≠ mcpApiKey) :
    appGate mcpApiKey req = .unauthorized ∧
      appOutboundCalls mcpApiKey req handlerCalls = [] := by
  have hauth : authenticateAPI mcpApiKey req.apiKey = .unauthorized := by
    rcases hkey with h | h
    · simp [authenticateAPI, h, truthy]
    · have hb : (req.apiKey != mcpApiKey) = true := by simpa [bne_iff_ne] using h
      simp [authenticateAPI, hb]
  refine ⟨?_, ?_⟩
  · simp [appGate, hpath, hauth]
  · simp [appOutboundCalls, appGate, hpath, hauth]

/-- Witness for C1 at a concrete prefixed path and mismatched key. -/
theorem auth_gate_rejects_without_outbound_witness :
    appGate (some "secret") ⟨"/health/x", some "wrong"⟩ = .unauthorized ∧
      appOutboundCalls (some "secret") ⟨"/health/x", some "wrong"⟩
        (fun _ => ["POST /v13/deployments"]) = [] :=
  auth_gate_rejects_without_outbound (some "secret") ⟨"/health/x", some "wrong"⟩
    (fun _ => ["POST /v13/deployments"]) (by decide) (Or.inr (by decide))

/-- C10: authentication fails closed — an absent or empty `x-api-key`
header is rejected whatever the configured secret, and when no secret is
configured at all (`MCP_API_KEY` undefined) every guarded request is
rejected, including one with no header. -/
theorem auth_fails_closed (mcpApiKey apiKey : Option String) :
    ((apiKey = none ∨ apiKey = some "") →
        authenticateAPI mcpApiKey apiKey = .unauthorized) ∧
      authenticateAPI none apiKey = .unauthorized := by
  constructor
  · rintro (h | h) <;> subst h <;> simp [authenticateAPI, truthy]
  · match apiKey with
    | none => simp [authenticateAPI, truthy]
    | some k =>
      by_cases hk : k = ""
      · simp [authenticateAPI, truthy, hk]
      · have hb : ((some k : Option String) != none) = true := by simp [bne_iff_ne]
        simp [authenticateAPI, hb]

/-- Witness for C10 at a configured secret with an empty header, and at a
missing secret with a well-formed header. -/
theorem auth_fails_closed_witness :
    authenticateAPI (some "secret") (some "") = .unauthorized ∧
      authenticateAPI none (some "anything") = .unauthorized :=
  ⟨(auth_fails_closed (some "secret") (some "")).1 (Or.inr rfl),
    (auth_fails_closed (some "secret") (some "anything")).2⟩

/-- C6: the liveness probe never propagates an exception — for every
token configuration and every outcome of the upstream identity call the
response is either the 200 healthy body with `connected: true` or the 503
unhealthy body with `connected: false` and an error message, and
`connected` is true exactly when the token is configured and the upstream
call succeeded. -/
theorem health_two_shapes (token : Option String)
    (upstream : Except (Option String) String) :
    ((healthHandler token upstream).statusCode = 200 ∧
        (healthHandler token upstream).status = "healthy" ∧
        (healthHandler token upstream).connected = true ∨
      (healthHandler token upstream).statusCode = 503 ∧
        (healthHandler token upstream).status = "unhealthy" ∧
        (healthHandler token upstream).connected = false ∧
        ∃ m, (healthHandler token upstream).error = some m) ∧
      ((healthHandler token upstream).connected = true ↔
        token.isSome = true ∧ upstreamOk upstream = true) := by
  cases token <;> cases upstream <;> simp [healthHandler, upstreamOk, jsErrMessage]

/-- C8 counterexample: a host string already carrying the scheme is
prefixed again, producing a doubled scheme. -/
theorem mkUrl_doubles_scheme :
    mkUrl "https://a.com" = "https://https://a.com" ∧
      doubledScheme (mkUrl "https://a.com") = true := by
  constructor
  · rfl
  · decide

/-- A pattern is found at the head of itself followed by anything. -/
theorem leadsWith_append (pat l : List Char) : leadsWith pat (pat ++ l) = true := by
  induction pat with
  | nil => rfl
  | cons c cs ih => simp [leadsWith, ih]

/-- Matching `p ++ q` against `p ++ l` reduces to matching `q` against `l`. -/
theorem leadsWith_append_left (p q l : List Char) :
    leadsWith (p ++ q) (p ++ l) = leadsWith q l := by
  induction p with
  | nil => rfl
  | cons c cs ih => simp [leadsWith, ih]

/-- C8 amended: for every host string that does not itself begin with the
scheme marker, the reconstructed URL carries exactly one scheme marker:
it starts with `https://` and not with `https://https://`. -/
theorem mkUrl_single_scheme (host : String) (h : startsWithScheme host = false) :
    startsWithScheme (mkUrl host) = true ∧ doubledScheme (mkUrl host) = false := by
  have hlist : (mkUrl host).toList = "https://".toList ++ host.toList := by
    simp [mkUrl, String.toList]
  constructor
  · simp only [startsWithScheme, hlist]
    exact leadsWith_append _ _
  · simp only [doubledScheme, hlist]
    have hpat : "https://https://".toList = "https://".toList ++ "https://".toList := by
      decide
    rw [hpat, leadsWith_append_left]
    exact h

/-- Witness for the amended C8 statement at a bare host. -/
theorem mkUrl_single_scheme_witness :
    startsWithScheme (mkUrl "a.com") = true ∧ doubledScheme (mkUrl "a.com") = false :=
  mkUrl_single_scheme "a.com" (by decide)

/-- C2: every trigger-deployment request that passes validation produces
an outbound payload whose `gitSource.type` defaults to `github` when
absent, whose `gitSource.ref` defaults to `main` when absent, and whose
`target` is `preview`; the caller-supplied `target` field is ignored
entirely. -/
theorem deploy_defaults (req : DeployRequest) (gs : GitSource)
    (hgs : req.gitSource = some gs)
    (hname : truthy req.name = true)
    (hrepo : truthy gs.repo = true) :
    ∃ p, deployHandler req = .sends p ∧
      p.tgt = "preview" ∧
      (gs.ty = none → p.gitTy = "github") ∧
      (gs.ref = none → p.gitRef = "main") ∧
      (∀ t, deployHandler { req with callerTarget := t } = deployHandler req) := by
  have hsend : deployHandler req =
      .sends
        { name := req.name.getD ""
          gitTy := jsOr gs.ty "github"
          gitRepo := gs.repo.getD ""
          gitRef := jsOr gs.ref "main"
          tgt := "preview"
          framework := if truthy req.framework then req.framework else none
          buildCommand := if truthy req.buildCommand then req.buildCommand else none
          env := req.envVariables.map reduceEnv } := by
    simp [deployHandler, hgs, hname, hrepo]
  refine ⟨_, hsend, rfl, ?_, ?_, fun t => rfl⟩
  · intro h; simp [jsOr, h]
  · intro h; simp [jsOr, h]

/-- Witness for C2: name and repo present, type and ref absent. -/
theorem deploy_defaults_witness :
    ∃ p, deployHandler ⟨some "app", some ⟨none, some "org/repo", none⟩,
        none, none, none, none⟩ = .sends p ∧
      p.tgt = "preview" ∧
      ((none : Option String) = none → p.gitTy = "github") ∧
      ((none : Option String) = none → p.gitRef = "main") ∧
      (∀ t, deployHandler { (⟨some "app", some ⟨none, some "org/repo", none⟩, none, none, none, none⟩ : DeployRequest) with callerTarget := t } =
        deployHandler ⟨some "app", some ⟨none, some "org/repo", none⟩,
          none, none, none, none⟩) :=
  deploy_defaults ⟨some "app", some ⟨none, some "org/repo", none⟩, none, none, none, none⟩
    ⟨none, some "org/repo", none⟩ rfl (by decide) (by decide)

/-- C3: a trigger-deployment request whose `name` is absent or empty, or
whose `gitSource` is absent, or whose `gitSource.repo` is absent or empty,
is answered with a 400 validation error and no outbound call is made. -/
theorem deploy_validation (req : DeployRequest)
    (h : truthy req.name = false ∨ req.gitSource = none ∨
        ∃ gs, req.gitSource = some gs ∧ truthy gs.repo = false) :
    (∃ msg, deployHandler req = .validationError msg) ∧
      deployOutboundCalls req = [] := by
  have herr : ∃ msg, deployHandler req = .validationError msg := by
    by_cases hn : truthy req.name
    · rcases h with h | h | ⟨gs, hgs, hr⟩
      · exact absurd hn (by simp [h])
      · exact ⟨"Git source is required", by simp [deployHandler, hn, h]⟩
      · exact ⟨"Git source is required", by simp [deployHandler, hn, hgs, hr]⟩
    · rw [Bool.not_eq_true] at hn
      exact ⟨"Project name is required", by simp [deployHandler, hn]⟩
  obtain ⟨msg, hm⟩ := herr
  exact ⟨⟨msg, hm⟩, by simp [deployOutboundCalls, hm]⟩

/-- Witness for C3 at a request with a repo but no name. -/
theorem deploy_validation_witness :
    (∃ msg, deployHandler ⟨none, some ⟨none, some "org/repo", none⟩,
        none, none, none, none⟩ = .validationError msg) ∧
      deployOutboundCalls ⟨none, some ⟨none, some "org/repo", none⟩,
        none, none, none, none⟩ = [] :=
  deploy_validation ⟨none, some ⟨none, some "org/repo", none⟩, none, none, none, none⟩
    (Or.inl (by decide))

/-- First-match lookup in the key-to-value object built by `setKey`. -/
def lookupKV : List (String × String) → String → Option String
  | [], _ => none
  | p :: rest, k => if p.1 = k then some p.2 else lookupKV rest k

/-- The value of the last entry of the `envVariables` array carrying the
given key, when any does: the claim reading of last write wins. -/
def lastVal : List EnvPair → String → Option String
  | [], _ => none
  | e :: rest, k =>
    match lastVal rest k with
    | some v => some v
    | none => if e.key = k then some e.value else none

/-- After `setKey m k v`, the binding of `k` is `v`. -/
theorem lookupKV_setKey_self (m : List (String × String)) (k v : String) :
    lookupKV (setKey m k v) k = some v := by
  induction m with
  | nil => simp [setKey, lookupKV]
  | cons p rest ih =>
    by_cases h : p.1 = k
    · simp [setKey, h, lookupKV]
    · simp [setKey, h, lookupKV, ih]

/-- Update `setKey m k v` leaves the binding of every other key unchanged. -/
theorem lookupKV_setKey_other (m : List (String × String)) (k v k' : String)
    (h : k ≠ k') : lookupKV (setKey m k v) k' = lookupKV m k' := by
  induction m with
  | nil => simp [setKey, lookupKV, h]
  | cons p rest ih =>
    by_cases h0 : p.1 = k
    · simp [setKey, h0, lookupKV, h]
    · simp [setKey, h0, lookupKV, ih]

/-- Unrolling the `envVariables.reduce` fold: the final binding of `k` is
the last written value, or whatever the accumulator already bound. -/
theorem lookupKV_foldl (l : List EnvPair) (acc : List (String × String)) (k : String) :
    lookupKV (l.foldl (fun acc e => setKey acc e.key e.value) acc) k =
      match lastVal l k with
      | some v => some v
      | none => lookupKV acc k := by
  induction l generalizing acc with
  | nil => simp [lastVal]
  | cons e rest ih =>
    simp only [List.foldl_cons, lastVal]
    rw [ih]
    cases hrest : lastVal rest k with
    | some v => simp
    | none =>
      by_cases he : e.key = k
      · simpa [he] using lookupKV_setKey_self acc k e.value
      · simp [he, lookupKV_setKey_other acc e.key e.value k he]

/-- C7: whenever `envVariables` is an array, the payload transmits it as
the single key-to-value object `reduceEnv envVariables`, and for every
key the transmitted binding is the value of the last entry carrying that
key: last write wins on duplicates. -/
theorem envVariables_last_write_wins (req : DeployRequest) (gs : GitSource)
    (l : List EnvPair)
    (hgs : req.gitSource = some gs)
    (hname : truthy req.name = true)
    (hrepo : truthy gs.repo = true)
    (henv : req.envVariables = some l) :
    (∃ p, deployHandler req = .sends p ∧ p.env = some (reduceEnv l)) ∧
      ∀ k, lookupKV (reduceEnv l) k = lastVal l k := by
  constructor
  · have hsend : deployHandler req =
        .sends
          { name := req.name.getD ""
            gitTy := jsOr gs.ty "github"
            gitRepo := gs.repo.getD ""
            gitRef := jsOr gs.ref "main"
            tgt := "preview"
            framework := if truthy req.framework then req.framework else none
            buildCommand := if truthy req.buildCommand then req.buildCommand else none
            env := req.envVariables.map reduceEnv } := by
      simp [deployHandler, hgs, hname, hrepo]
    refine ⟨_, hsend, ?_⟩
    simp [henv]
  · intro k
    have h := lookupKV_foldl l [] k
    rw [reduceEnv]
    cases hl : lastVal l k <;> simp [hl] at h <;> simp [h, lookupKV]

/-- Witness for C7 at a request with a duplicated key. -/
theorem envVariables_last_write_wins_witness :
    (∃ p, deployHandler ⟨some "app", some ⟨none, some "org/repo", none⟩,
        some [⟨"A", "1"⟩, ⟨"B", "2"⟩, ⟨"A", "3"⟩], none, none, none⟩ = .sends p ∧
      p.env = some (reduceEnv [⟨"A", "1"⟩, ⟨"B", "2"⟩, ⟨"A", "3"⟩])) ∧
      ∀ k, lookupKV (reduceEnv [⟨"A", "1"⟩, ⟨"B", "2"⟩, ⟨"A", "3"⟩]) k =
        lastVal [⟨"A", "1"⟩, ⟨"B", "2"⟩, ⟨"A", "3"⟩] k :=
  envVariables_last_write_wins
    ⟨some "app", some ⟨none, some "org/repo", none⟩,
      some [⟨"A", "1"⟩, ⟨"B", "2"⟩, ⟨"A", "3"⟩], none, none, none⟩
    ⟨none, some "org/repo", none⟩ [⟨"A", "1"⟩, ⟨"B", "2"⟩, ⟨"A", "3"⟩]
    rfl (by decide) (by decide) rfl

/-- C4: when any single outbound env write fails, the env handler reports
the whole operation as the 500 failure envelope; the full write list is
still dispatched (no partial-success reporting, no rollback of writes that
succeeded), and a repeated identical call issues the same writes again
with no deduplication. -/
theorem env_all_or_nothing (req : EnvRequest) (pid : String)
    (entries : List (String × String)) (ok : EnvWrite → Bool)
    (hpid : req.projectId = some pid) (hne : pid ≠ "")
    (henv : req.env = some entries)
    (hfail : ∃ w ∈ envWrites pid entries, ok w = false) :
    envHandler req ok = (.failure, envWrites pid entries) ∧
      envRepeatCalls 2 req ok = envWrites pid entries ++ envWrites pid entries := by
  have htr : truthy req.projectId = true := by simp [hpid, truthy, hne]
  have hall : (envWrites pid entries).all ok = false := by
    obtain ⟨w, hw, hfw⟩ := hfail
    simp only [List.all_eq_false]
    exact ⟨w, hw, by simp [hfw]⟩
  have hgd : req.projectId.getD "" = pid := by simp [hpid]
  have hh : envHandler req ok = (.failure, envWrites pid entries) := by
    simp [envHandler, htr, henv, hgd, hall]
  have hrep : envRepeatCalls 2 req ok =
      (envHandler req ok).2 ++ ((envHandler req ok).2 ++ []) := rfl
  refine ⟨hh, ?_⟩
  rw [hrep, hh]
  simp

/-- Witness for C4: two entries, the second write failing. -/
theorem env_all_or_nothing_witness :
    envHandler ⟨some "p", some [("A", "1"), ("B", "2")]⟩ (fun w => w.key == "A") =
        (.failure, envWrites "p" [("A", "1"), ("B", "2")]) ∧
      envRepeatCalls 2 ⟨some "p", some [("A", "1"), ("B", "2")]⟩ (fun w => w.key == "A") =
        envWrites "p" [("A", "1"), ("B", "2")] ++ envWrites "p" [("A", "1"), ("B", "2")] :=
  env_all_or_nothing ⟨some "p", some [("A", "1"), ("B", "2")]⟩ "p"
    [("A", "1"), ("B", "2")] (fun w => w.key == "A") rfl (by decide) rfl (by decide)

/-- C9: the env handler accepts an empty env object — a non-empty
`projectId` with `env: {}` passes validation, issues zero writes and
returns success; and the 400 validation rejection happens exactly when
`projectId` is JS-falsy or `env` is absent. -/
theorem env_accepts_empty (pid : String) (ok : EnvWrite → Bool) (hne : pid ≠ "") :
    envHandler ⟨some pid, some []⟩ ok = (.success, []) ∧
      ∀ req : EnvRequest, (envHandler req ok).1 = .validationError ↔
        (truthy req.projectId = false ∨ req.env = none) := by
  constructor
  · simp [envHandler, truthy, hne, envWrites]
  · intro req
    by_cases ht : truthy req.projectId = true
    · cases henv : req.env with
      | none => simp [envHandler, ht, henv]
      | some entries =>
        have hnv : (envHandler req ok).1 ≠ .validationError := by
          simp only [envHandler, ht, henv]
          cases hall : (envWrites (req.projectId.getD "") entries).all ok <;>
            simp [hall]
        constructor
        · intro hx; exact absurd hx hnv
        · rintro (h | h)
          · rw [h] at ht; exact (Bool.false_ne_true ht).elim
          · exact Option.noConfusion h
    · rw [Bool.not_eq_true] at ht
      simp [envHandler, ht]

/-- Witness for C9 at a concrete project id and the all-succeed oracle. -/
theorem env_accepts_empty_witness :
    envHandler ⟨some "p", some []⟩ (fun _ => true) = (.success, []) ∧
      ∀ req : EnvRequest, (envHandler req (fun _ => true)).1 = .validationError ↔
        (truthy req.projectId = false ∨ req.env = none) :=
  env_accepts_empty "p" (fun _ => true) (by decide)

/-- A stderr event whose payload has an empty `text` and a non-empty
`message`. -/
def emptyTextEvent : VercelEvent := ⟨"stderr", 0, some ⟨some "", some "boom"⟩⟩

/-- C5 counterexample: on a stderr event whose payload `text` is present
but empty and whose `message` is `boom`, the code emits `boom` (JS `||`
skips the empty string) while the rule of the claim — payload text if
present — prescribes the empty string, so the projection the claim
describes differs from the one the code computes. -/
theorem errors_claim_counterexample :
    parseErrors [emptyTextEvent] = [⟨0, "boom"⟩] ∧
      claimParseErrors [emptyTextEvent] = [⟨0, ""⟩] ∧
      parseErrors [emptyTextEvent] ≠ claimParseErrors [emptyTextEvent] := by
  refine ⟨?_, ?_, ?_⟩ <;> decide

/-- The filter of the code agrees with the wording of the spec: the
extra truthiness conjunct is redundant because the empty string contains
no substring `error`. -/
theorem isErrorEvent_eq_spec (e : VercelEvent) : isErrorEvent e = specErrorFilter e := by
  cases hp : e.payload with
  | none => simp [isErrorEvent, specErrorFilter, hp]
  | some p =>
    cases ht : p.text with
    | none => simp [isErrorEvent, specErrorFilter, hp, ht]
    | some t =>
      by_cases h : t = ""
      · have hli : lowerIncludes "" "error" = false := by decide
        simp [isErrorEvent, specErrorFilter, hp, ht, h, hli]
      · simp [isErrorEvent, specErrorFilter, hp, ht, h]

/-- The message projection of the code agrees with the amended rule: prefer a
present and non-empty `text`, then a present and non-empty `message`,
else the literal fallback. -/
theorem errorMessage_eq_amended (e : VercelEvent) : errorMessage e = amendedMessage e := by
  cases hp : e.payload with
  | none => simp [errorMessage, amendedMessage, hp]
  | some p =>
    cases ht : p.text with
    | none =>
      cases hm : p.message with
      | none => simp [errorMessage, amendedMessage, hp, ht, hm, truthy]
      | some m =>
        by_cases h : m = "" <;>
          simp [errorMessage, amendedMessage, hp, ht, hm, truthy, h]
    | some t =>
      by_cases h : t = ""
      · cases hm : p.message with
        | none => simp [errorMessage, amendedMessage, hp, ht, hm, truthy, h]
        | some m =>
          by_cases h2 : m = "" <;>
            simp [errorMessage, amendedMessage, hp, ht, hm, truthy, h, h2]
      · simp [errorMessage, amendedMessage, hp, ht, truthy, h]

/-- C5 amended: the errors handler keeps exactly the events whose type is
exactly `stderr` or whose payload text contains the case-insensitive
substring `error`, maps each kept event to its timestamp and a message
that is `payload.text` if present and non-empty, else `payload.message`
if present and non-empty, else `Unknown error`; and `hasErrors` is true
exactly when the resulting list is non-empty. -/
theorem errors_projection_amended (events : List VercelEvent) :
    parseErrors events = amendedParseErrors events ∧
      (errorsResponse events).2 = decide (parseErrors events ≠ []) := by
  constructor
  · have hmsg : (fun e : VercelEvent => (⟨e.created, errorMessage e⟩ : ErrorEntry)) =
        fun e => ⟨e.created, amendedMessage e⟩ := by
      funext e; rw [errorMessage_eq_amended]
    rw [parseErrors, amendedParseErrors, hmsg,
      List.filter_congr (fun e _ => isErrorEvent_eq_spec e)]
  · cases h : parseErrors events with
    | nil => simp [errorsResponse, h]
    | cons a t => simp [errorsResponse, h]

end JavariMcp
